import Mathlib

/-!
Verification of the model-to-DDL compiler in
`src/lib/data/export-metadata/export-sql-script.ts`:
the foreign-key type unifier (`alignForeignKeyDataTypes`,
`getMySQLDataTypeSize`) and the canonical DDL emitter (`exportBaseSQL`).

The domain entity types (`Diagram`, `Table`, `Field`, `Index`,
`Relationship`) live in `src/lib/domain/…`, which is not part of the
sources here; they are modelled from the specification's data-model
section.  The functions themselves are translated from the TypeScript
source.  JavaScript in-place mutation of the diagram is modelled by
functions returning the updated value; JavaScript truthiness tests on
optional numbers and strings are modelled explicitly
(`truthyNat`, `truthyStr`).
-/

namespace ChartDB

/-- Modelled from the spec: a Field of a Table — identifier, name, SQL
`type` string, optional `characterMaximumLength`, optional
`precision`/`scale`, `nullable`, optional raw `default` text,
and `primaryKey`. -/
structure DBField where
  id : String
  name : String
  type : String
  characterMaximumLength : Option Nat
  precision : Option Nat
  scale : Option Nat
  nullable : Bool
  default : Option String
  primaryKey : Bool
deriving DecidableEq, Repr

/-- Modelled from the spec: an Index of a Table — name, `unique` flag,
and the ordered `fieldIds` referencing Fields of the same table. -/
structure DBIndex where
  name : String
  unique : Bool
  fieldIds : List String
deriving DecidableEq, Repr

/-- Modelled from the spec: a Table — identifier, name, `isView` flag,
ordered fields and indexes. -/
structure Table where
  id : String
  name : String
  isView : Bool
  fields : List DBField
  indexes : List DBIndex
deriving DecidableEq, Repr

/-- Modelled from the spec: a Relationship between a source Table+Field
and a target Table+Field, with a constraint name. -/
structure Relationship where
  name : String
  sourceTableId : String
  sourceFieldId : String
  targetTableId : String
  targetFieldId : String
deriving DecidableEq, Repr

/-- Modelled from the spec: the root Diagram aggregate.  The TypeScript
code guards `!tables` and uses `relationships?.`, so both collections
may be absent; this is modelled with `Option`. -/
structure Diagram where
  tables : Option (List Table)
  relationships : Option (List Relationship)
deriving DecidableEq, Repr

/-- JavaScript truthiness of an optional number: `undefined` and `0`
are falsy. -/
def truthyNat : Option Nat → Bool
  | none => false
  | some n => n != 0

/-- JavaScript truthiness of an optional string: `undefined` and `""`
are falsy. -/
def truthyStr : Option String → Bool
  | none => false
  | some s => s != ""

/-! ### Type unifier (`getMySQLDataTypeSize`, `alignForeignKeyDataTypes`) -/

/-- The fixed size-weight association list of `getMySQLDataTypeSize`. -/
def sizeTable : List (String × Nat) :=
  [("tinyint", 1), ("smallint", 2), ("mediumint", 3), ("integer", 4),
   ("bigint", 8), ("float", 4), ("double", 8), ("decimal", 16),
   ("numeric", 16)]

/-- JavaScript `String.prototype.toLowerCase()` (over the ASCII
alphabet of the size table's keys): each character lower-cased. -/
def strToLower (s : String) : String :=
  ⟨s.data.map Char.toLower⟩

/-- `getMySQLDataTypeSize(type)`: look the lower-cased type string up in
the fixed table; `|| 0` yields `0` when absent. -/
def getMySQLDataTypeSize (type : String) : Nat :=
  (sizeTable.lookup (strToLower type)).getD 0

/-- `tableMap.get(tid)`: the `Map` built by `tables.forEach((t) =>
tableMap.set(t.id, t))` keeps, for each id, the table stored last. -/
def tableMapGet (tables : List Table) (tid : String) : Option Table :=
  tables.reverse.find? (fun t => t.id == tid)

/-- In-place mutation `field.type = ty` of the first field with the given
id, modelled as a pure list update. -/
def updateFirstField : List DBField → String → String → List DBField
  | [], _, _ => []
  | f :: rest, fid, ty =>
    if f.id == fid then { f with type := ty } :: rest
    else f :: updateFirstField rest fid ty

/-- Update (the first field with id `fid` of) a table's fields. -/
def updateFieldInTable (t : Table) (fid ty : String) : Table :=
  { t with fields := updateFirstField t.fields fid ty }

/-- Mutation through `tableMap.get`: the object mutated is the last
table with the given id, and within it the first field with the given
field id (the one `find` returns). -/
def updateFirstTable : List Table → String → String → String → List Table
  | [], _, _, _ => []
  | t :: rest, tid, fid, ty =>
    if t.id == tid then updateFieldInTable t fid ty :: rest
    else t :: updateFirstTable rest tid fid ty

/-- Update, among the tables, the last one with id `tid` (the one
`tableMap.get` returns), setting its first field with id `fid` to type
`ty`. -/
def updateLastTable (tables : List Table) (tid fid ty : String) : List Table :=
  (updateFirstTable tables.reverse tid fid ty).reverse

/-- The body of the `relationships.forEach` loop in
`alignForeignKeyDataTypes`: resolve both tables via the map, then both
fields; if all resolve, overwrite the narrower field's type with the
wider one's (strict comparison each way, no mutation on ties). -/
def processRelationship (tables : List Table) (r : Relationship) : List Table :=
  match tableMapGet tables r.sourceTableId, tableMapGet tables r.targetTableId with
  | some sourceTable, some targetTable =>
    match sourceTable.fields.find? (fun f => f.id == r.sourceFieldId),
          targetTable.fields.find? (fun f => f.id == r.targetFieldId) with
    | some sourceField, some targetField =>
      let sourceSize := getMySQLDataTypeSize sourceField.type
      let targetSize := getMySQLDataTypeSize targetField.type
      if sourceSize > targetSize then
        updateLastTable tables r.targetTableId r.targetFieldId sourceField.type
      else if targetSize > sourceSize then
        updateLastTable tables r.sourceTableId r.sourceFieldId targetField.type
      else tables
    | _, _ => tables
  | _, _ => tables

/-- `alignForeignKeyDataTypes(diagram)`: no-op when tables or
relationships are absent or empty; otherwise a single forward pass over
the relationships, each observing earlier mutations. -/
def alignForeignKeyDataTypes (d : Diagram) : Diagram :=
  match d.tables, d.relationships with
  | some tables, some relationships =>
    if tables.isEmpty || relationships.isEmpty then d
    else { d with tables := some (relationships.foldl processRelationship tables) }
  | _, _ => d

/-! ### DDL emitter (`exportBaseSQL`) -/

/-- The trailing constraints of a column line: `NOT NULL` when
`nullable` is falsy, `DEFAULT …` when `default` is truthy,
`PRIMARY KEY` when set. -/
def fieldSuffix (f : DBField) : String :=
  (if !f.nullable then " NOT NULL" else "")
  ++ (if truthyStr f.default then " DEFAULT " ++ f.default.getD "" else "")
  ++ (if f.primaryKey then " PRIMARY KEY" else "")

/-- One column line (without the separating comma): name and type, then
the `(length)` clause when `characterMaximumLength` is truthy, then —
independently — the `(precision, scale)` or `(precision)` clause, then
the constraint suffix. -/
def fieldSQL (f : DBField) : String :=
  "  " ++ f.name ++ " " ++ f.type
  ++ (if truthyNat f.characterMaximumLength then
        "(" ++ toString (f.characterMaximumLength.getD 0) ++ ")"
      else "")
  ++ (if truthyNat f.precision && truthyNat f.scale then
        "(" ++ toString (f.precision.getD 0) ++ ", " ++ toString (f.scale.getD 0) ++ ")"
      else if truthyNat f.precision then
        "(" ++ toString (f.precision.getD 0) ++ ")"
      else "")
  ++ fieldSuffix f

/-- The column lines of a table, `,\n`-separated after every field but
the last (`index < table.fields.length - 1`). -/
def fieldsSQL : List DBField → String
  | [] => ""
  | [f] => fieldSQL f
  | f :: rest => fieldSQL f ++ ",\n" ++ fieldsSQL rest

/-- The `CREATE TABLE` statement of a table: header, column lines, and
the closing `\n);\n\n`. -/
def createTableStmt (t : Table) : String :=
  "CREATE TABLE " ++ t.name ++ " (\n" ++ fieldsSQL t.fields ++ "\n);\n\n"

/-- The resolved index column names: map each `fieldId` through
`fields.find`, keep the names (`?.name` drops unresolved entries), and
`filter(Boolean)` additionally drops empty names. -/
def resolvedIndexNames (t : Table) (idx : DBIndex) : List String :=
  (idx.fieldIds.filterMap
    (fun fid => (t.fields.find? (fun f => f.id == fid)).map (fun f => f.name))).filter
    (fun n => n != "")

/-- JavaScript `Array.prototype.join(', ')`: the elements separated by
`", "`. -/
def joinComma : List String → String
  | [] => ""
  | [n] => n
  | n :: rest => n ++ ", " ++ joinComma rest

/-- The contribution of one index: one `CREATE [UNIQUE ]INDEX` line when
the comma-joined name string is truthy, nothing otherwise. -/
def indexSQL (t : Table) (idx : DBIndex) : String :=
  let fieldNames := joinComma (resolvedIndexNames t idx)
  if fieldNames != "" then
    "CREATE " ++ (if idx.unique then "UNIQUE " else "") ++ "INDEX "
      ++ idx.name ++ " ON " ++ t.name ++ " (" ++ fieldNames ++ ");\n"
  else ""

/-- The whole contribution of one non-view table: its `CREATE TABLE`
statement, its index lines, and the separating `\n`. -/
def tableSQL (t : Table) : String :=
  createTableStmt t
    ++ t.indexes.foldl (fun acc idx => acc ++ indexSQL t idx) ""
    ++ "\n"

/-- The contribution of one relationship: resolve source and target
table in `nonViewTables` (first match), then the fields; emit one
`ALTER TABLE … ADD CONSTRAINT` line when all four resolve, nothing
otherwise. -/
def relationshipSQL (nonViewTables : List Table) (r : Relationship) : String :=
  let sourceTable := nonViewTables.find? (fun t => t.id == r.sourceTableId)
  let targetTable := nonViewTables.find? (fun t => t.id == r.targetTableId)
  let sourceTableField :=
    sourceTable.bind (fun t => t.fields.find? (fun f => f.id == r.sourceFieldId))
  let targetTableField :=
    targetTable.bind (fun t => t.fields.find? (fun f => f.id == r.targetFieldId))
  match sourceTable, targetTable, sourceTableField, targetTableField with
  | some st, some tt, some sf, some tf =>
    "ALTER TABLE " ++ st.name ++ " ADD CONSTRAINT " ++ r.name
      ++ " FOREIGN KEY (" ++ sf.name ++ ") REFERENCES " ++ tt.name
      ++ " (" ++ tf.name ++ ");\n"
  | _, _, _, _ => ""

/-- Whether all four endpoint lookups of `relationshipSQL` succeed. -/
def relResolves (nonViewTables : List Table) (r : Relationship) : Bool :=
  match nonViewTables.find? (fun t => t.id == r.sourceTableId),
        nonViewTables.find? (fun t => t.id == r.targetTableId) with
  | some st, some tt =>
    (st.fields.find? (fun f => f.id == r.sourceFieldId)).isSome
      && (tt.fields.find? (fun f => f.id == r.targetFieldId)).isSome
  | _, _ => false

/-- `exportBaseSQL(diagram)`: returns the diagram state after the call
(the in-place mutation done by `alignForeignKeyDataTypes`) together with
the SQL string.  Guard: absent or empty tables return `''` before the
unifier runs.  `nonViewTables` is computed from the post-mutation state:
the JavaScript array is built before the unifier runs but holds
references to the very objects the unifier mutates. -/
def exportBaseSQL (d : Diagram) : Diagram × String :=
  match d.tables with
  | none => (d, "")
  | some tables =>
    if tables.isEmpty then (d, "")
    else
      let d2 := alignForeignKeyDataTypes d
      let nonViewTables := (d2.tables.getD []).filter (fun t => !t.isView)
      let sql1 := nonViewTables.foldl (fun acc t => acc ++ tableSQL t) ""
      let sql2 :=
        match d2.relationships with
        | none => sql1
        | some relationships =>
          relationships.foldl (fun acc r => acc ++ relationshipSQL nonViewTables r) sql1
      (d2, sql2)

/-! ### Derived notions used by the statements -/

/-- The type of the field the unifier's lookups resolve for a
(table id, field id) pair: the last table with the id (as in
`tableMap`), and within it the first field with the field id (as
`fields.find`). -/
def lookupType (tables : List Table) (tid fid : String) : Option String :=
  (tableMapGet tables tid).bind
    (fun t => (t.fields.find? (fun f => f.id == fid)).map (fun f => f.type))

/-- Concatenation of the images of a list, in order. -/
def strConcatMap (f : α → String) : List α → String
  | [] => ""
  | x :: rest => f x ++ strConcatMap f rest

/-- The non-view tables the emitter works with, in the post-unifier
state. -/
def nvtOf (d : Diagram) : List Table :=
  ((alignForeignKeyDataTypes d).tables.getD []).filter (fun t => !t.isView)

/-- The relationship list of a diagram (empty when absent). -/
def relsOf (d : Diagram) : List Relationship :=
  d.relationships.getD []

/-- The two (table id, field id) endpoint keys of a relationship. -/
def relKeys (r : Relationship) : List (String × String) :=
  [(r.sourceTableId, r.sourceFieldId), (r.targetTableId, r.targetFieldId)]

/-- No endpoint key of `r1` is an endpoint key of `r2`. -/
def keysDisjoint (r1 r2 : Relationship) : Bool :=
  (relKeys r1).all (fun k => !(relKeys r2).contains k)

/-- No two distinct relationships of the list share an endpoint key. -/
def pairwiseDisjoint : List Relationship → Bool
  | [] => true
  | r :: rest => rest.all (keysDisjoint r) && pairwiseDisjoint rest

/-- Whether two resolved types would make the unifier mutate: both
lookups succeed and the size weights differ. -/
def typeConflict (a b : Option String) : Bool :=
  match a, b with
  | some sty, some tty => getMySQLDataTypeSize sty != getMySQLDataTypeSize tty
  | _, _ => false

/-- Two fields agreeing on every attribute except possibly `type`. -/
def sameExceptType (f g : DBField) : Prop :=
  f.id = g.id ∧ f.name = g.name
    ∧ f.characterMaximumLength = g.characterMaximumLength
    ∧ f.precision = g.precision ∧ f.scale = g.scale
    ∧ f.nullable = g.nullable ∧ f.default = g.default
    ∧ f.primaryKey = g.primaryKey

/-- Two tables agreeing on everything except possibly their fields'
`type` attributes. -/
def sameTableShape (t u : Table) : Prop :=
  t.id = u.id ∧ t.name = u.name ∧ t.isView = u.isView
    ∧ t.indexes = u.indexes
    ∧ List.Forall₂ sameExceptType t.fields u.fields

/-! ### Basic string and fold lemmas -/

theorem foldl_append_eq (f : α → String) :
    ∀ (l : List α) (s : String),
      l.foldl (fun acc x => acc ++ f x) s = s ++ strConcatMap f l
  | [], s => by simp [strConcatMap]
  | x :: rest, s => by
      simp only [List.foldl_cons, strConcatMap]
      rw [foldl_append_eq f rest (s ++ f x), String.append_assoc]

theorem strConcatMap_eq_empty {f : α → String} :
    ∀ {l : List α}, (∀ x ∈ l, f x = "") → strConcatMap f l = ""
  | [], _ => rfl
  | x :: rest, h => by
      simp only [strConcatMap]
      rw [h x (List.mem_cons_self x rest),
        strConcatMap_eq_empty (fun y hy => h y (List.mem_cons_of_mem x hy))]
      rfl

theorem append_ne_empty_left {a : String} (b : String) (ha : a ≠ "") :
    a ++ b ≠ "" := by
  intro h
  apply ha
  have hd := congrArg String.data h
  rw [String.data_append] at hd
  exact String.ext ((List.append_eq_nil.mp hd).1)

theorem joinComma_ne_empty :
    ∀ (l : List String), l ≠ [] → (∀ x ∈ l, x ≠ "") → joinComma l ≠ ""
  | [], h, _ => absurd rfl h
  | [n], _, hx => by simpa [joinComma] using hx n (by simp)
  | n :: m :: rest, _, hx => by
      have hn : n ≠ "" := hx n (by simp)
      simpa [joinComma, String.append_assoc] using
        append_ne_empty_left (", " ++ joinComma (m :: rest)) hn

/-! ### Lemmas about the unifier's in-place update -/

theorem updateFirstField_find? (fs : List DBField) (fid fid' ty : String) :
    (updateFirstField fs fid ty).find? (fun f => f.id == fid') =
      if fid' = fid then
        (fs.find? (fun f => f.id == fid)).map (fun f => { f with type := ty })
      else fs.find? (fun f => f.id == fid') := by
  induction fs with
  | nil => simp [updateFirstField]
  | cons f rest ih =>
    by_cases hf : f.id = fid
    · by_cases hf' : fid' = fid
      · subst hf'
        simp [updateFirstField, hf, List.find?_cons]
      · have h1 : f.id ≠ fid' := fun h => hf' (h.symm.trans hf)
        have h3 : fid ≠ fid' := fun h => hf' h.symm
        simp [updateFirstField, hf, hf', h1, h3, List.find?_cons]
    · by_cases hh : f.id = fid'
      · have h2 : fid' ≠ fid := fun h => hf (hh.trans h)
        simp [updateFirstField, hf, hh, h2, List.find?_cons]
      · simp [updateFirstField, hf, hh, List.find?_cons, ih]

theorem updateFirstTable_find? (ts : List Table) (tid tid' fid ty : String) :
    (updateFirstTable ts tid fid ty).find? (fun t => t.id == tid') =
      if tid' = tid then
        (ts.find? (fun t => t.id == tid)).map (fun t => updateFieldInTable t fid ty)
      else ts.find? (fun t => t.id == tid') := by
  induction ts with
  | nil => simp [updateFirstTable]
  | cons t rest ih =>
    by_cases hf : t.id = tid
    · by_cases hf' : tid' = tid
      · subst hf'
        simp [updateFirstTable, updateFieldInTable, hf, List.find?_cons]
      · have h1 : t.id ≠ tid' := fun h => hf' (h.symm.trans hf)
        have h3 : tid ≠ tid' := fun h => hf' h.symm
        simp [updateFirstTable, updateFieldInTable, hf, hf', h1, h3, List.find?_cons]
    · by_cases hh : t.id = tid'
      · have h2 : tid' ≠ tid := fun h => hf (hh.trans h)
        simp [updateFirstTable, hf, hh, h2, List.find?_cons]
      · simp [updateFirstTable, hf, hh, List.find?_cons, ih]

theorem tableMapGet_updateLastTable (ts : List Table) (tid tid' fid ty : String) :
    tableMapGet (updateLastTable ts tid fid ty) tid' =
      if tid' = tid then
        (tableMapGet ts tid).map (fun t => updateFieldInTable t fid ty)
      else tableMapGet ts tid' := by
  unfold tableMapGet updateLastTable
  rw [List.reverse_reverse]
  exact updateFirstTable_find? ts.reverse tid tid' fid ty

theorem lookupType_updateLastTable (ts : List Table) (tid tid' fid fid' ty : String) :
    lookupType (updateLastTable ts tid fid ty) tid' fid' =
      if tid' = tid ∧ fid' = fid then (lookupType ts tid fid).map (fun _ => ty)
      else lookupType ts tid' fid' := by
  unfold lookupType
  rw [tableMapGet_updateLastTable]
  by_cases ht : tid' = tid
  · subst ht
    simp only [if_pos rfl, true_and]
    cases hm : tableMapGet ts tid' with
    | none => by_cases hf : fid' = fid <;> simp [hf]
    | some t =>
      simp only [Option.map_some', Option.some_bind]
      show ((updateFirstField t.fields fid ty).find? (fun f => f.id == fid')).map _ = _
      rw [updateFirstField_find?]
      by_cases hf : fid' = fid
      · subst hf
        simp only [if_pos rfl]
        cases t.fields.find? (fun f => f.id == fid') <;> simp
      · simp [hf]
  · simp [ht]

/-- The unifier's per-relationship step, characterized through
`lookupType`: both endpoints must resolve, then strict weight
comparison decides which endpoint is overwritten. -/
theorem processRelationship_eq (ts : List Table) (r : Relationship) :
    processRelationship ts r =
      match lookupType ts r.sourceTableId r.sourceFieldId,
            lookupType ts r.targetTableId r.targetFieldId with
      | some sty, some tty =>
        if getMySQLDataTypeSize sty > getMySQLDataTypeSize tty then
          updateLastTable ts r.targetTableId r.targetFieldId sty
        else if getMySQLDataTypeSize tty > getMySQLDataTypeSize sty then
          updateLastTable ts r.sourceTableId r.sourceFieldId tty
        else ts
      | _, _ => ts := by
  unfold processRelationship lookupType
  cases hs : tableMapGet ts r.sourceTableId with
  | none => simp
  | some st =>
    cases ht : tableMapGet ts r.targetTableId with
    | none => simp
    | some tt =>
      simp only [Option.some_bind]
      cases hsf : st.fields.find? (fun f => f.id == r.sourceFieldId) with
      | none => simp
      | some sf =>
        cases htf : tt.fields.find? (fun f => f.id == r.targetFieldId) with
        | none => simp
        | some tf => simp

/-- Lookups at keys other than the one a step may write are unchanged
by the step. -/
theorem processRelationship_lookup_frame (ts : List Table) (r : Relationship)
    (tid fid : String) (h : ((relKeys r).contains (tid, fid)) = false) :
    lookupType (processRelationship ts r) tid fid = lookupType ts tid fid := by
  have hks : ¬(tid = r.sourceTableId ∧ fid = r.sourceFieldId) := by
    intro ⟨h1, h2⟩
    subst h1; subst h2
    simp [relKeys] at h
  have hkt : ¬(tid = r.targetTableId ∧ fid = r.targetFieldId) := by
    intro ⟨h1, h2⟩
    subst h1; subst h2
    simp [relKeys] at h
  rw [processRelationship_eq]
  cases lookupType ts r.sourceTableId r.sourceFieldId with
  | none => rfl
  | some sty =>
    cases lookupType ts r.targetTableId r.targetFieldId with
    | none => rfl
    | some tty =>
      by_cases h1 : getMySQLDataTypeSize sty > getMySQLDataTypeSize tty
      · simp only [if_pos h1]
        rw [lookupType_updateLastTable, if_neg hkt]
      · by_cases h2 : getMySQLDataTypeSize tty > getMySQLDataTypeSize sty
        · simp only [if_neg h1, if_pos h2]
          rw [lookupType_updateLastTable, if_neg hks]
        · simp [h1, h2]

/-- A relationship whose endpoint lookups do not conflict is left
untouched by its step. -/
theorem processRelationship_of_not_conflict (ts : List Table) (r : Relationship)
    (h : typeConflict (lookupType ts r.sourceTableId r.sourceFieldId)
           (lookupType ts r.targetTableId r.targetFieldId) = false) :
    processRelationship ts r = ts := by
  rw [processRelationship_eq]
  cases hs : lookupType ts r.sourceTableId r.sourceFieldId with
  | none => rfl
  | some sty =>
    cases ht : lookupType ts r.targetTableId r.targetFieldId with
    | none => rfl
    | some tty =>
      rw [hs, ht] at h
      simp only [typeConflict, bne_eq_false_iff_eq] at h
      simp [h]

/-- The unifier has nothing left to do for `r` in state `ts`. -/
def settled (ts : List Table) (r : Relationship) : Prop :=
  typeConflict (lookupType ts r.sourceTableId r.sourceFieldId)
    (lookupType ts r.targetTableId r.targetFieldId) = false

theorem settled_of_eq_lookups {ts ts' : List Table} {r : Relationship}
    (hs : lookupType ts' r.sourceTableId r.sourceFieldId
            = lookupType ts r.sourceTableId r.sourceFieldId)
    (ht : lookupType ts' r.targetTableId r.targetFieldId
            = lookupType ts r.targetTableId r.targetFieldId)
    (h : settled ts r) : settled ts' r := by
  unfold settled at h ⊢
  rw [hs, ht]
  exact h

/-- After its own step runs, a relationship is settled: the step either
did nothing (no conflict) or made the two endpoint types equal. -/
theorem settled_after_step (ts : List Table) (r : Relationship) :
    settled (processRelationship ts r) r := by
  rw [processRelationship_eq]
  cases hs : lookupType ts r.sourceTableId r.sourceFieldId with
  | none => simp [settled, typeConflict, hs]
  | some sty =>
    cases ht : lookupType ts r.targetTableId r.targetFieldId with
    | none => simp [settled, typeConflict, hs, ht]
    | some tty =>
      by_cases hne : (r.sourceTableId, r.sourceFieldId) = (r.targetTableId, r.targetFieldId)
      · have heq : sty = tty := by
          have h1 := hs
          rw [show r.sourceTableId = r.targetTableId from congrArg Prod.fst hne,
            show r.sourceFieldId = r.targetFieldId from congrArg Prod.snd hne, ht] at h1
          exact (Option.some_inj.mp h1).symm
        subst heq
        simp [settled, typeConflict, hs, ht]
      · by_cases h1 : getMySQLDataTypeSize sty > getMySQLDataTypeSize tty
        · simp only [if_pos h1]
          have hlt : lookupType (updateLastTable ts r.targetTableId r.targetFieldId sty)
              r.targetTableId r.targetFieldId = some sty := by
            rw [lookupType_updateLastTable, if_pos ⟨rfl, rfl⟩, ht]
            rfl
          have hls : lookupType (updateLastTable ts r.targetTableId r.targetFieldId sty)
              r.sourceTableId r.sourceFieldId = some sty := by
            rw [lookupType_updateLastTable,
              if_neg (fun hc => hne (Prod.ext hc.1 hc.2)), hs]
          simp [settled, typeConflict, hls, hlt]
        · by_cases h2 : getMySQLDataTypeSize tty > getMySQLDataTypeSize sty
          · simp only [if_neg h1, if_pos h2]
            have hls : lookupType (updateLastTable ts r.sourceTableId r.sourceFieldId tty)
                r.sourceTableId r.sourceFieldId = some tty := by
              rw [lookupType_updateLastTable, if_pos ⟨rfl, rfl⟩, hs]
              rfl
            have hlt : lookupType (updateLastTable ts r.sourceTableId r.sourceFieldId tty)
                r.targetTableId r.targetFieldId = some tty := by
              rw [lookupType_updateLastTable,
                if_neg (fun hc => hne (Prod.ext hc.1 hc.2).symm), ht]
            simp [settled, typeConflict, hls, hlt]
          · simp only [if_neg h1, if_neg h2]
            have : getMySQLDataTypeSize sty = getMySQLDataTypeSize tty :=
              Nat.le_antisymm (Nat.le_of_not_lt h1) (Nat.le_of_not_lt h2)
            simp [settled, typeConflict, hs, ht, this]

/-- A step for a key-disjoint relationship keeps `r` settled. -/
theorem settled_step_frame (ts : List Table) (r r' : Relationship)
    (hd : keysDisjoint r r' = true) (h : settled ts r) :
    settled (processRelationship ts r') r := by
  have hks : ((relKeys r').contains (r.sourceTableId, r.sourceFieldId)) = false := by
    simp only [keysDisjoint, relKeys, List.all_cons, List.all_nil, Bool.and_true,
      Bool.and_eq_true, Bool.not_eq_true'] at hd
    exact hd.1
  have hkt : ((relKeys r').contains (r.targetTableId, r.targetFieldId)) = false := by
    simp only [keysDisjoint, relKeys, List.all_cons, List.all_nil, Bool.and_true,
      Bool.and_eq_true, Bool.not_eq_true'] at hd
    exact hd.2
  exact settled_of_eq_lookups
    (processRelationship_lookup_frame ts r' _ _ hks)
    (processRelationship_lookup_frame ts r' _ _ hkt) h

/-- Folding steps for key-disjoint relationships keeps `r` settled. -/
theorem settled_foldl_frame :
    ∀ (rest : List Relationship) (ts : List Table) (r : Relationship),
      (∀ r' ∈ rest, keysDisjoint r r' = true) → settled ts r →
      settled (rest.foldl processRelationship ts) r
  | [], _, _, _, h => h
  | r' :: rest, ts, r, hd, h => by
    simp only [List.foldl_cons]
    exact settled_foldl_frame rest _ r
      (fun x hx => hd x (List.mem_cons_of_mem r' hx))
      (settled_step_frame ts r r' (hd r' (List.mem_cons_self r' rest)) h)

/-- After one full pass over pairwise key-disjoint relationships, every
one of them is settled. -/
theorem all_settled_after_fold :
    ∀ (rs : List Relationship) (ts : List Table),
      pairwiseDisjoint rs = true →
      ∀ r ∈ rs, settled (rs.foldl processRelationship ts) r
  | [], _, _, r, hr => absurd hr (List.not_mem_nil r)
  | r0 :: rest, ts, hp, r, hr => by
    simp only [pairwiseDisjoint, Bool.and_eq_true, List.all_eq_true] at hp
    simp only [List.foldl_cons]
    rcases List.mem_cons.mp hr with heq | hmem
    · subst heq
      exact settled_foldl_frame rest _ r hp.1 (settled_after_step ts r)
    · exact all_settled_after_fold rest _ hp.2 r hmem

/-- A pass over relationships that are all settled changes nothing. -/
theorem foldl_of_all_settled :
    ∀ (rs : List Relationship) (ts : List Table),
      (∀ r ∈ rs, settled ts r) → rs.foldl processRelationship ts = ts
  | [], _, _ => rfl
  | r0 :: rest, ts, h => by
    simp only [List.foldl_cons,
      processRelationship_of_not_conflict ts r0 (h r0 (List.mem_cons_self r0 rest))]
    exact foldl_of_all_settled rest ts fun r hr => h r (List.mem_cons_of_mem r0 hr)

/-! ### Shape preservation of the unifier -/

theorem sameExceptType_refl (f : DBField) : sameExceptType f f :=
  ⟨rfl, rfl, rfl, rfl, rfl, rfl, rfl, rfl⟩

theorem sameExceptType_trans (f g h : DBField)
    (h1 : sameExceptType f g) (h2 : sameExceptType g h) : sameExceptType f h := by
  obtain ⟨a1, a2, a3, a4, a5, a6, a7, a8⟩ := h1
  obtain ⟨b1, b2, b3, b4, b5, b6, b7, b8⟩ := h2
  exact ⟨a1.trans b1, a2.trans b2, a3.trans b3, a4.trans b4, a5.trans b5,
    a6.trans b6, a7.trans b7, a8.trans b8⟩

theorem forall2_refl_of_refl {R : α → α → Prop} (hrefl : ∀ a, R a a) :
    ∀ (l : List α), List.Forall₂ R l l
  | [] => List.Forall₂.nil
  | _ :: rest => List.Forall₂.cons (hrefl _) (forall2_refl_of_refl hrefl rest)

theorem forall2_trans_of_trans {R : α → α → Prop}
    (htrans : ∀ a b c, R a b → R b c → R a c) :
    ∀ {l₁ l₂ l₃ : List α}, List.Forall₂ R l₁ l₂ → List.Forall₂ R l₂ l₃ →
      List.Forall₂ R l₁ l₃
  | _, _, _, List.Forall₂.nil, List.Forall₂.nil => List.Forall₂.nil
  | _, _, _, List.Forall₂.cons hab h12, List.Forall₂.cons hbc h23 =>
    List.Forall₂.cons (htrans _ _ _ hab hbc) (forall2_trans_of_trans htrans h12 h23)

theorem sameTableShape_refl (t : Table) : sameTableShape t t :=
  ⟨rfl, rfl, rfl, rfl, forall2_refl_of_refl sameExceptType_refl t.fields⟩

theorem sameTableShape_trans (t u v : Table)
    (h1 : sameTableShape t u) (h2 : sameTableShape u v) : sameTableShape t v := by
  obtain ⟨a1, a2, a3, a4, a5⟩ := h1
  obtain ⟨b1, b2, b3, b4, b5⟩ := h2
  exact ⟨a1.trans b1, a2.trans b2, a3.trans b3, a4.trans b4,
    forall2_trans_of_trans sameExceptType_trans a5 b5⟩

theorem updateFirstField_shape (fid ty : String) :
    ∀ (fs : List DBField), List.Forall₂ sameExceptType fs (updateFirstField fs fid ty)
  | [] => List.Forall₂.nil
  | f :: rest => by
    unfold updateFirstField
    by_cases hf : f.id == fid
    · rw [if_pos hf]
      exact List.Forall₂.cons ⟨rfl, rfl, rfl, rfl, rfl, rfl, rfl, rfl⟩
        (forall2_refl_of_refl sameExceptType_refl rest)
    · rw [if_neg hf]
      exact List.Forall₂.cons (sameExceptType_refl f) (updateFirstField_shape fid ty rest)

theorem updateFieldInTable_shape (t : Table) (fid ty : String) :
    sameTableShape t (updateFieldInTable t fid ty) :=
  ⟨rfl, rfl, rfl, rfl, updateFirstField_shape fid ty t.fields⟩

theorem updateFirstTable_shape (tid fid ty : String) :
    ∀ (ts : List Table), List.Forall₂ sameTableShape ts (updateFirstTable ts tid fid ty)
  | [] => List.Forall₂.nil
  | t :: rest => by
    unfold updateFirstTable
    by_cases hf : t.id == tid
    · rw [if_pos hf]
      exact List.Forall₂.cons (updateFieldInTable_shape t fid ty)
        (forall2_refl_of_refl sameTableShape_refl rest)
    · rw [if_neg hf]
      exact List.Forall₂.cons (sameTableShape_refl t) (updateFirstTable_shape tid fid ty rest)

theorem updateLastTable_shape (ts : List Table) (tid fid ty : String) :
    List.Forall₂ sameTableShape ts (updateLastTable ts tid fid ty) := by
  have h := List.forall₂_reverse_iff.mpr (updateFirstTable_shape tid fid ty ts.reverse)
  rw [List.reverse_reverse] at h
  exact h

theorem processRelationship_shape (ts : List Table) (r : Relationship) :
    List.Forall₂ sameTableShape ts (processRelationship ts r) := by
  rw [processRelationship_eq]
  cases lookupType ts r.sourceTableId r.sourceFieldId with
  | none => exact forall2_refl_of_refl sameTableShape_refl ts
  | some sty =>
    cases lookupType ts r.targetTableId r.targetFieldId with
    | none => exact forall2_refl_of_refl sameTableShape_refl ts
    | some tty =>
      by_cases h1 : getMySQLDataTypeSize sty > getMySQLDataTypeSize tty
      · simp only [if_pos h1]
        exact updateLastTable_shape ts _ _ _
      · by_cases h2 : getMySQLDataTypeSize tty > getMySQLDataTypeSize sty
        · simp only [if_neg h1, if_pos h2]
          exact updateLastTable_shape ts _ _ _
        · simp only [if_neg h1, if_neg h2]
          exact forall2_refl_of_refl sameTableShape_refl ts

theorem foldl_process_shape :
    ∀ (rs : List Relationship) (ts : List Table),
      List.Forall₂ sameTableShape ts (rs.foldl processRelationship ts)
  | [], ts => forall2_refl_of_refl sameTableShape_refl ts
  | r :: rest, ts => by
    simp only [List.foldl_cons]
    exact forall2_trans_of_trans sameTableShape_trans
      (processRelationship_shape ts r) (foldl_process_shape rest _)

theorem align_tables_shape (d : Diagram) :
    List.Forall₂ sameTableShape (d.tables.getD [])
      ((alignForeignKeyDataTypes d).tables.getD []) := by
  obtain ⟨tabs, rels⟩ := d
  cases tabs with
  | none =>
    cases rels <;>
      exact forall2_refl_of_refl sameTableShape_refl _
  | some ts =>
    cases rels with
    | none => exact forall2_refl_of_refl sameTableShape_refl _
    | some rs =>
      have hdef : alignForeignKeyDataTypes ⟨some ts, some rs⟩
          = if ts.isEmpty || rs.isEmpty then (⟨some ts, some rs⟩ : Diagram)
            else ⟨some (rs.foldl processRelationship ts), some rs⟩ := rfl
      rw [hdef]
      by_cases hemp : ts.isEmpty || rs.isEmpty
      · rw [if_pos hemp]
        exact forall2_refl_of_refl sameTableShape_refl ts
      · rw [if_neg hemp]
        exact foldl_process_shape rs ts

theorem align_relationships_eq (d : Diagram) :
    (alignForeignKeyDataTypes d).relationships = d.relationships := by
  obtain ⟨tabs, rels⟩ := d
  cases tabs with
  | none => cases rels <;> rfl
  | some ts =>
    cases rels with
    | none => rfl
    | some rs =>
      have hdef : alignForeignKeyDataTypes ⟨some ts, some rs⟩
          = if ts.isEmpty || rs.isEmpty then (⟨some ts, some rs⟩ : Diagram)
            else ⟨some (rs.foldl processRelationship ts), some rs⟩ := rfl
      rw [hdef]
      by_cases hemp : ts.isEmpty || rs.isEmpty
      · rw [if_pos hemp]
      · rw [if_neg hemp]

/-- The unifier is idempotent on diagrams whose relationships are
pairwise endpoint-disjoint. -/
theorem align_idem_of_pairwiseDisjoint (d : Diagram)
    (h : pairwiseDisjoint (relsOf d) = true) :
    alignForeignKeyDataTypes (alignForeignKeyDataTypes d)
      = alignForeignKeyDataTypes d := by
  obtain ⟨tabs, rels⟩ := d
  cases tabs with
  | none => cases rels <;> rfl
  | some ts =>
    cases rels with
    | none => rfl
    | some rs =>
      have hdef : alignForeignKeyDataTypes ⟨some ts, some rs⟩
          = if ts.isEmpty || rs.isEmpty then (⟨some ts, some rs⟩ : Diagram)
            else ⟨some (rs.foldl processRelationship ts), some rs⟩ := rfl
      rw [hdef]
      by_cases hemp : ts.isEmpty || rs.isEmpty
      · rw [if_pos hemp, hdef, if_pos hemp]
      · rw [if_neg hemp]
        have hdef2 : alignForeignKeyDataTypes
            ⟨some (rs.foldl processRelationship ts), some rs⟩
            = if (rs.foldl processRelationship ts).isEmpty || rs.isEmpty
              then (⟨some (rs.foldl processRelationship ts), some rs⟩ : Diagram)
              else ⟨some (rs.foldl processRelationship
                      (rs.foldl processRelationship ts)), some rs⟩ := rfl
        rw [hdef2]
        by_cases hemp2 : (rs.foldl processRelationship ts).isEmpty || rs.isEmpty
        · rw [if_pos hemp2]
        · rw [if_neg hemp2]
          have hset : rs.foldl processRelationship (rs.foldl processRelationship ts)
              = rs.foldl processRelationship ts :=
            foldl_of_all_settled rs _ (all_settled_after_fold rs ts h)
          rw [hset]

/-! ### Emitter lemmas -/

theorem relationshipSQL_nil (r : Relationship) : relationshipSQL [] r = "" := rfl

theorem relationshipSQL_eq_empty_of_not_resolves (nvt : List Table)
    (r : Relationship) (h : relResolves nvt r = false) :
    relationshipSQL nvt r = "" := by
  unfold relResolves at h
  unfold relationshipSQL
  cases hs : nvt.find? (fun t => t.id == r.sourceTableId) with
  | none => simp [hs]
  | some st =>
    cases ht : nvt.find? (fun t => t.id == r.targetTableId) with
    | none => simp [hs, ht]
    | some tt =>
      cases hsf : st.fields.find? (fun f => f.id == r.sourceFieldId) with
      | none => simp [hs, ht, hsf]
      | some sf =>
        cases htf : tt.fields.find? (fun f => f.id == r.targetFieldId) with
        | none => simp [hs, ht, hsf, htf]
        | some tf =>
          rw [hs, ht] at h
          have h2 : ((st.fields.find? (fun f => f.id == r.sourceFieldId)).isSome
              && (tt.fields.find? (fun f => f.id == r.targetFieldId)).isSome) = false := h
          rw [hsf, htf] at h2
          simp at h2

theorem lookup_eq_none_of_not_mem :
    ∀ (l : List (String × Nat)) (k : String), k ∉ l.map Prod.fst →
      l.lookup k = none
  | [], _, _ => rfl
  | (a, b) :: rest, k, h => by
    simp only [List.map_cons, List.mem_cons] at h
    push_neg at h
    have hk : (k == a) = false := beq_eq_false_iff_ne.mpr h.1
    simp only [List.lookup_cons, hk]
    exact lookup_eq_none_of_not_mem rest k h.2

/-- `exportBaseSQL` output splits as all table text followed by all
relationship text. -/
theorem exportBaseSQL_snd (d : Diagram) :
    (exportBaseSQL d).2 =
      strConcatMap tableSQL (nvtOf d)
        ++ strConcatMap (fun r => relationshipSQL (nvtOf d) r) (relsOf d) := by
  obtain ⟨tabs, rels⟩ := d
  cases tabs with
  | none =>
    cases rels with
    | none => rfl
    | some rs =>
      show ("" : String) = strConcatMap tableSQL (nvtOf ⟨none, some rs⟩)
        ++ strConcatMap (fun r => relationshipSQL (nvtOf ⟨none, some rs⟩) r) rs
      have hn : nvtOf ⟨none, some rs⟩ = [] := rfl
      rw [hn, strConcatMap_eq_empty (fun r _ => relationshipSQL_nil r)]
      rfl
  | some ts =>
    by_cases hemp : ts.isEmpty
    · have hts : ts = [] := List.isEmpty_iff.mp hemp
      subst hts
      cases rels with
      | none => rfl
      | some rs =>
        show ("" : String) = strConcatMap tableSQL (nvtOf ⟨some [], some rs⟩)
          ++ strConcatMap (fun r => relationshipSQL (nvtOf ⟨some [], some rs⟩) r) rs
        have hn : nvtOf ⟨some [], some rs⟩ = [] := rfl
        rw [hn, strConcatMap_eq_empty (fun r _ => relationshipSQL_nil r)]
        rfl
    · cases rels with
      | none =>
        have hd2 : alignForeignKeyDataTypes ⟨some ts, none⟩ = ⟨some ts, none⟩ := rfl
        show (exportBaseSQL ⟨some ts, none⟩).2 = _
        unfold exportBaseSQL
        simp only [hd2, hemp, Bool.false_eq_true, if_false]
        rw [foldl_append_eq, String.empty_append]
        show strConcatMap tableSQL (ts.filter fun t => !t.isView) = _
        have : relsOf ⟨some ts, none⟩ = [] := rfl
        rw [this]
        show _ = strConcatMap tableSQL (nvtOf ⟨some ts, none⟩) ++ ""
        rw [String.append_empty]
        rfl
      | some rs =>
        have hrel : (alignForeignKeyDataTypes ⟨some ts, some rs⟩).relationships
            = some rs := align_relationships_eq ⟨some ts, some rs⟩
        unfold exportBaseSQL
        simp only [hemp, Bool.false_eq_true, if_false, hrel]
        rw [foldl_append_eq, foldl_append_eq, String.empty_append]
        rfl

/-- In the widening case (strictly greater source weight), the step
rewrites the target field's type to the source type and leaves the
source type in place. -/
theorem processRelationship_widens (ts : List Table) (r : Relationship)
    (sty tty : String)
    (hs : lookupType ts r.sourceTableId r.sourceFieldId = some sty)
    (ht : lookupType ts r.targetTableId r.targetFieldId = some tty)
    (hgt : getMySQLDataTypeSize sty > getMySQLDataTypeSize tty) :
    lookupType (processRelationship ts r) r.targetTableId r.targetFieldId = some sty
      ∧ lookupType (processRelationship ts r) r.sourceTableId r.sourceFieldId
          = some sty := by
  have hne : (r.sourceTableId, r.sourceFieldId) ≠ (r.targetTableId, r.targetFieldId) := by
    intro hc
    rw [show r.sourceTableId = r.targetTableId from congrArg Prod.fst hc,
      show r.sourceFieldId = r.targetFieldId from congrArg Prod.snd hc, ht] at hs
    have : tty = sty := Option.some_inj.mp hs
    subst this
    exact Nat.lt_irrefl _ hgt
  rw [processRelationship_eq, hs, ht]
  simp only [if_pos hgt]
  constructor
  · rw [lookupType_updateLastTable, if_pos ⟨rfl, rfl⟩, ht]
    rfl
  · rw [lookupType_updateLastTable,
      if_neg (fun hc => hne (Prod.ext hc.1 hc.2)), hs]

/-- Pointwise shape agreement transports the all-views property. -/
theorem forall2_isView_true :
    ∀ {l m : List Table}, List.Forall₂ sameTableShape l m →
      (∀ t ∈ l, t.isView = true) → ∀ u ∈ m, u.isView = true
  | _, _, List.Forall₂.nil, _, u, hu => absurd hu (List.not_mem_nil u)
  | _, _, List.Forall₂.cons hab h12, hl, u, hu => by
    rcases List.mem_cons.mp hu with heq | hmem
    · subst heq
      exact hab.2.2.1 ▸ hl _ (List.mem_cons_self _ _)
    · exact forall2_isView_true h12 (fun t htm => hl t (List.mem_cons_of_mem _ htm)) u hmem

/-- With pairwise-distinct table ids, a table the unifier's map resolves
to a view is invisible to the emitter's non-view resolution. -/
theorem find?_filter_nonview_eq_none (ts : List Table) (tid : String) (st : Table)
    (hnodup : (ts.map (fun t => t.id)).Nodup)
    (hst : tableMapGet ts tid = some st) (hview : st.isView = true) :
    (ts.filter (fun t => !t.isView)).find? (fun t => t.id == tid) = none := by
  cases hf : (ts.filter (fun t => !t.isView)).find? (fun t => t.id == tid) with
  | none => rfl
  | some u =>
    exfalso
    have humem : u ∈ ts.filter (fun t => !t.isView) := List.mem_of_find?_eq_some hf
    have huid : u.id = tid := by
      have := List.find?_some hf
      simpa using this
    have hu1 : u ∈ ts := (List.mem_filter.mp humem).1
    have hu2 : u.isView = false := by
      have := (List.mem_filter.mp humem).2
      simpa using this
    have hstmem : st ∈ ts := List.mem_reverse.mp (List.mem_of_find?_eq_some hst)
    have hstid : st.id = tid := by
      have := List.find?_some hst
      simpa using this
    have : u = st :=
      List.inj_on_of_nodup_map hnodup hu1 hstmem (huid.trans hstid.symm)
    rw [this, hview] at hu2
    exact absurd hu2 (by simp)

/-! ### Concrete inputs for counterexamples and witnesses -/

/-- A field with the given id, name and type and all optional
attributes absent. -/
def mkField (id name ty : String) : DBField :=
  { id := id, name := name, type := ty, characterMaximumLength := none,
    precision := none, scale := none, nullable := true, default := none,
    primaryKey := false }

/-- A table with the given id, name, view flag and fields, and no
indexes. -/
def mkTable (id name : String) (v : Bool) (fs : List DBField) : Table :=
  { id := id, name := name, isView := v, fields := fs, indexes := [] }

/-- A relationship given by its four endpoint ids. -/
def mkRel (name stid sfid ttid tfid : String) : Relationship :=
  { name := name, sourceTableId := stid, sourceFieldId := sfid,
    targetTableId := ttid, targetFieldId := tfid }

/-! ### Claim C1 -/

def dC1 : Diagram :=
  { tables := some [mkTable "A" "A" false [mkField "a" "a" "bigint"],
                    mkTable "B" "B" false [mkField "b" "b" "tinyint"]],
    relationships := some [mkRel "r" "A" "a" "B" "b"] }

/-- C1 (counterexample): `exportBaseSQL` is not mutation-free on the
input diagram — on `dC1` the unifier it invokes widens `B.b` from
`tinyint` to `bigint`, so the diagram state after the call differs from
the state before. -/
theorem C1_counterexample : (exportBaseSQL dC1).1 ≠ dC1 := by decide

/-- C1 (amended): the diagram state after `exportBaseSQL` is exactly the
state `alignForeignKeyDataTypes` produces — the emission itself performs
no further mutation beyond the unifier call embedded in
`exportBaseSQL`. -/
theorem C1_export_state_eq_align (d : Diagram) :
    (exportBaseSQL d).1 = alignForeignKeyDataTypes d := by
  obtain ⟨tabs, rels⟩ := d
  cases tabs with
  | none => cases rels <;> rfl
  | some ts =>
    by_cases hemp : ts.isEmpty
    · have hts : ts = [] := List.isEmpty_iff.mp hemp
      subst hts
      cases rels with
      | none => rfl
      | some rs => rfl
    · cases rels with
      | none =>
        unfold exportBaseSQL
        simp [hemp]
      | some rs =>
        unfold exportBaseSQL
        simp [hemp]

/-! ### Claim C2 -/

def fC2 : DBField :=
  { id := "f", name := "c", type := "varchar",
    characterMaximumLength := some 5, precision := some 10, scale := some 2,
    nullable := true, default := none, primaryKey := false }

/-- C2 (counterexample): for a field with both `characterMaximumLength`
and `precision` set, the emitted column line carries BOTH the `(5)`
length clause and the `(10, 2)` precision clause — the two clauses are
not mutually exclusive and length does not suppress precision. -/
theorem C2_counterexample :
    fC2.characterMaximumLength = some 5 ∧ fC2.precision = some 10
      ∧ fC2.scale = some 2
      ∧ fieldSQL fC2 = "  c varchar(5)(10, 2)"
      ∧ fieldSQL fC2 ≠ "  c varchar(5)" := by
  refine ⟨rfl, rfl, rfl, by decide, by decide⟩

/-- C2 (amended): when both `characterMaximumLength` and `precision` are
truthy, the column line contains the `(length)` clause immediately
followed by the `(precision, scale)` clause (or `(precision)` when
`scale` is falsy): both clauses are emitted, length first. -/
theorem C2_both_clauses_emitted (f : DBField)
    (h1 : truthyNat f.characterMaximumLength = true)
    (h2 : truthyNat f.precision = true) :
    fieldSQL f =
      "  " ++ f.name ++ " " ++ f.type
        ++ ("(" ++ toString (f.characterMaximumLength.getD 0) ++ ")")
        ++ (if truthyNat f.scale then
              "(" ++ toString (f.precision.getD 0) ++ ", "
                ++ toString (f.scale.getD 0) ++ ")"
            else "(" ++ toString (f.precision.getD 0) ++ ")")
        ++ fieldSuffix f := by
  unfold fieldSQL
  cases hsc : truthyNat f.scale <;> simp [h1, h2, hsc]

def fC2w : DBField :=
  { id := "g", name := "amount", type := "decimal",
    characterMaximumLength := some 12, precision := some 10, scale := none,
    nullable := false, default := none, primaryKey := false }

/-- C2 (witness): the amended statement evaluated on a concrete field
with both clauses truthy. -/
theorem C2_witness : fieldSQL fC2w = "  amount decimal(12)(10) NOT NULL" :=
  C2_both_clauses_emitted fC2w (by decide) (by decide)

/-! ### Claim C3 -/

def dC3 : Diagram :=
  { tables := some [mkTable "A" "A" false [mkField "a" "a" "tinyint"],
                    mkTable "B" "B" false [mkField "b" "b" "tinyint"],
                    mkTable "C" "C" false [mkField "c" "c" "bigint"]],
    relationships := some [mkRel "r1" "A" "a" "B" "b",
                           mkRel "r2" "C" "c" "B" "b"] }

/-- C3 (counterexample): the unifier is NOT idempotent.  On `dC3` the
first pass leaves `A.a` at `tinyint` (r1 ties at weight 1) and widens
`B.b` to `bigint` via r2; the second pass then sees r1 with unequal
weights and widens `A.a` as well, so the second run is not a no-op. -/
theorem C3_counterexample :
    alignForeignKeyDataTypes (alignForeignKeyDataTypes dC3)
      ≠ alignForeignKeyDataTypes dC3 := by decide

/-- C3 (amended): the unifier is idempotent on every diagram whose
relationships are pairwise endpoint-disjoint (no two distinct
relationships name a common (table id, field id) endpoint); the
counterexample requires two relationships sharing a field. -/
theorem C3_idempotent_of_disjoint (d : Diagram)
    (h : pairwiseDisjoint (relsOf d) = true) :
    alignForeignKeyDataTypes (alignForeignKeyDataTypes d)
      = alignForeignKeyDataTypes d :=
  align_idem_of_pairwiseDisjoint d h

def dC3w : Diagram :=
  { tables := some [mkTable "A" "A" false [mkField "a" "a" "bigint"],
                    mkTable "B" "B" false [mkField "b" "b" "tinyint"]],
    relationships := some [mkRel "r" "A" "a" "B" "b"] }

/-- C3 (witness): the amended idempotence on a concrete diagram whose
single relationship actually mutates a type on the first run. -/
theorem C3_witness :
    alignForeignKeyDataTypes (alignForeignKeyDataTypes dC3w)
      = alignForeignKeyDataTypes dC3w :=
  C3_idempotent_of_disjoint dC3w (by decide)

/-! ### Claim C4 -/

/-- C4: the fixed, case-insensitive weight table (`tinyint=1,
smallint=2, mediumint=3, integer=4, bigint=8, float=4, double=8,
decimal=16, numeric=16`, anything else `0`), and the per-relationship
rule: with both endpoints resolved, a strictly greater source weight
overwrites the target field's type with the source type, a strictly
greater target weight overwrites the source field's type with the
target type, and equal weights mutate nothing. -/
theorem C4_step_rule :
    (getMySQLDataTypeSize "tinyint" = 1 ∧ getMySQLDataTypeSize "smallint" = 2
      ∧ getMySQLDataTypeSize "mediumint" = 3 ∧ getMySQLDataTypeSize "integer" = 4
      ∧ getMySQLDataTypeSize "bigint" = 8 ∧ getMySQLDataTypeSize "float" = 4
      ∧ getMySQLDataTypeSize "double" = 8 ∧ getMySQLDataTypeSize "decimal" = 16
      ∧ getMySQLDataTypeSize "numeric" = 16
      ∧ getMySQLDataTypeSize "TINYINT" = 1 ∧ getMySQLDataTypeSize "BigInt" = 8
      ∧ getMySQLDataTypeSize "varchar" = 0 ∧ getMySQLDataTypeSize "uuid" = 0)
    ∧ (∀ s : String, strToLower s ∉ sizeTable.map Prod.fst →
        getMySQLDataTypeSize s = 0)
    ∧ (∀ (ts : List Table) (r : Relationship) (sty tty : String),
        lookupType ts r.sourceTableId r.sourceFieldId = some sty →
        lookupType ts r.targetTableId r.targetFieldId = some tty →
        (getMySQLDataTypeSize sty > getMySQLDataTypeSize tty →
          lookupType (processRelationship ts r) r.targetTableId r.targetFieldId
              = some sty
            ∧ lookupType (processRelationship ts r) r.sourceTableId r.sourceFieldId
              = some sty)
        ∧ (getMySQLDataTypeSize tty > getMySQLDataTypeSize sty →
          lookupType (processRelationship ts r) r.sourceTableId r.sourceFieldId
              = some tty
            ∧ lookupType (processRelationship ts r) r.targetTableId r.targetFieldId
              = some tty)
        ∧ (getMySQLDataTypeSize sty = getMySQLDataTypeSize tty →
          processRelationship ts r = ts)) := by
  refine ⟨by decide, ?_, ?_⟩
  · intro s h
    unfold getMySQLDataTypeSize
    rw [lookup_eq_none_of_not_mem sizeTable (strToLower s) h]
    rfl
  · intro ts r sty tty hs ht
    refine ⟨processRelationship_widens ts r sty tty hs ht, ?_, ?_⟩
    · intro hgt
      -- apply the widening lemma with the roles of source and target swapped
      have h := processRelationship_widens ts
        (mkRel r.name r.targetTableId r.targetFieldId r.sourceTableId r.sourceFieldId)
        tty sty ht hs hgt
      -- the swapped relationship takes the same step as the original one here
      rw [processRelationship_eq] at h ⊢
      simp only [mkRel] at h
      rw [hs, ht]
      rw [ht, hs] at h
      simp only [if_neg (Nat.lt_asymm hgt), if_pos hgt] at h ⊢
      exact ⟨h.1, h.2⟩
    · intro heq
      apply processRelationship_of_not_conflict
      rw [hs, ht]
      simp [typeConflict, heq]

def tsC4 : List Table :=
  [mkTable "A" "A" false [mkField "a" "a" "bigint"],
   mkTable "B" "B" false [mkField "b" "b" "tinyint"]]

def rC4 : Relationship := mkRel "r" "A" "a" "B" "b"

/-- C4 (witness): on a concrete resolved relationship with
`bigint` (8) source and `tinyint` (1) target, the target is overwritten
with `bigint` and the source stays `bigint`. -/
theorem C4_witness :
    lookupType (processRelationship tsC4 rC4) rC4.targetTableId rC4.targetFieldId
        = some "bigint"
      ∧ lookupType (processRelationship tsC4 rC4) rC4.sourceTableId rC4.sourceFieldId
        = some "bigint" :=
  (C4_step_rule.2.2 tsC4 rC4 "bigint" "tinyint" (by decide) (by decide)).1 (by decide)

/-! ### Claim C5 -/

/-- C5: the emitter's output is all per-table text (CREATE TABLE and
CREATE INDEX statements, in table order) followed by all per-relationship
text (ALTER TABLE statements, in relationship order), and a relationship
whose source/target table or field does not resolve against the
non-view table set contributes the empty string — no ALTER TABLE line
and no failure. -/
theorem C5_alter_lines_last (d : Diagram) :
    (exportBaseSQL d).2 =
        strConcatMap tableSQL (nvtOf d)
          ++ strConcatMap (fun r => relationshipSQL (nvtOf d) r) (relsOf d)
      ∧ ∀ r : Relationship, relResolves (nvtOf d) r = false →
          relationshipSQL (nvtOf d) r = "" :=
  ⟨exportBaseSQL_snd d,
   fun r h => relationshipSQL_eq_empty_of_not_resolves (nvtOf d) r h⟩

def dC5 : Diagram :=
  { tables := some [mkTable "T" "t" false [mkField "f" "f" "integer"]],
    relationships := some [mkRel "r" "T" "f" "X" "x"] }

/-- C5 (witness): a relationship whose target table id resolves to no
non-view table contributes the empty string on a concrete diagram. -/
theorem C5_witness :
    relationshipSQL (nvtOf dC5) (mkRel "r" "T" "f" "X" "x") = "" :=
  (C5_alter_lines_last dC5).2 (mkRel "r" "T" "f" "X" "x") (by decide)

/-! ### Claim C6 -/

def tC6 : Table :=
  { id := "T", name := "t", isView := false,
    fields := [mkField "f1" "" "integer"],
    indexes := [{ name := "i", unique := false, fieldIds := ["f1"] }] }

def idxC6 : DBIndex := { name := "i", unique := false, fieldIds := ["f1"] }

/-- C6 (counterexample): `idxC6`'s single `fieldId` resolves to a field
of `tC6` (so the claim demands exactly one CREATE INDEX line), yet the
emitter produces no line, because the resolved name is the empty string
and `filter(Boolean)` drops it. -/
theorem C6_counterexample :
    (tC6.fields.find? (fun f => f.id == "f1")).isSome = true
      ∧ indexSQL tC6 idxC6 = "" := by
  exact ⟨rfl, rfl⟩

/-- C6 (amended): an index none of whose `fieldIds` resolves to a field
with a nonempty name produces no output; an index with at least one
resolvable field of nonempty name produces exactly the one
`CREATE [UNIQUE ]INDEX` line listing the nonempty resolved names,
comma-joined, in `fieldIds` order. -/
theorem C6_index_line (t : Table) (idx : DBIndex) :
    (resolvedIndexNames t idx = [] → indexSQL t idx = "")
      ∧ (resolvedIndexNames t idx ≠ [] →
          indexSQL t idx =
            "CREATE " ++ (if idx.unique then "UNIQUE " else "") ++ "INDEX "
              ++ idx.name ++ " ON " ++ t.name ++ " ("
              ++ joinComma (resolvedIndexNames t idx) ++ ");\n") := by
  constructor
  · intro h
    simp [indexSQL, h, joinComma]
  · intro h
    have hmem : ∀ x ∈ resolvedIndexNames t idx, x ≠ "" := by
      intro x hx
      have := (List.mem_filter.mp hx).2
      simpa using this
    have hne : joinComma (resolvedIndexNames t idx) ≠ "" :=
      joinComma_ne_empty _ h hmem
    simp [indexSQL, hne]

def tC6w : Table :=
  { id := "T", name := "t", isView := false,
    fields := [mkField "f1" "col" "integer", mkField "f2" "dropped" "integer"],
    indexes := [] }

def idxC6w : DBIndex := { name := "i", unique := true, fieldIds := ["f1", "missing"] }

/-- C6 (witness): on a concrete index with one resolvable nonempty name
and one unresolvable id, exactly the one `CREATE UNIQUE INDEX` line is
produced. -/
theorem C6_witness : indexSQL tC6w idxC6w = "CREATE UNIQUE INDEX i ON t (col);\n" :=
  (C6_index_line tC6w idxC6w).2 (by decide)

/-! ### Claim C7 -/

/-- C7: a diagram with absent or empty tables yields exactly the empty
string, and a diagram all of whose tables are views also yields the
empty string — no CREATE TABLE, CREATE INDEX or ALTER TABLE text — even
when relationships reference those views. -/
theorem C7_empty_output (d : Diagram) :
    ((d.tables = none ∨ d.tables = some []) → (exportBaseSQL d).2 = "")
      ∧ (∀ ts, d.tables = some ts → (∀ t ∈ ts, t.isView = true) →
          (exportBaseSQL d).2 = "") := by
  constructor
  · intro h
    obtain ⟨tabs, rels⟩ := d
    rcases h with h | h <;> simp only [] at h <;> subst h <;> cases rels <;> rfl
  · intro ts hts hview
    have hnvt : nvtOf d = [] := by
      apply List.filter_eq_nil_iff.mpr
      intro a ha
      have hv := forall2_isView_true (align_tables_shape d)
        (by rw [hts]; exact hview) a ha
      simp [hv]
    rw [exportBaseSQL_snd d, hnvt]
    rw [strConcatMap_eq_empty (fun r _ => relationshipSQL_nil r)]
    rfl

def dC7 : Diagram :=
  { tables := some [mkTable "V" "v" true [mkField "a" "a" "integer"]],
    relationships := some [mkRel "r" "V" "a" "V" "a"] }

/-- C7 (witness): a concrete diagram with a single view table referenced
by a relationship emits the empty string. -/
theorem C7_witness : (exportBaseSQL dC7).2 = "" :=
  (C7_empty_output dC7).2 [mkTable "V" "v" true [mkField "a" "a" "integer"]]
    rfl (by decide)

/-! ### Claim C8 -/

/-- C8: the unifier's only effect is overwriting `Field.type` values —
relationships are untouched, the presence of the tables collection is
unchanged, and the table list is pointwise identical in ids, names,
`isView` flags, indexes, and every field attribute other than `type`
(same lists element for element, so no entity is created or
destroyed). -/
theorem C8_align_frame (d : Diagram) :
    (alignForeignKeyDataTypes d).relationships = d.relationships
      ∧ ((alignForeignKeyDataTypes d).tables).isSome = d.tables.isSome
      ∧ List.Forall₂ sameTableShape (d.tables.getD [])
          ((alignForeignKeyDataTypes d).tables.getD []) := by
  refine ⟨align_relationships_eq d, ?_, align_tables_shape d⟩
  obtain ⟨tabs, rels⟩ := d
  cases tabs with
  | none => cases rels <;> rfl
  | some ts =>
    cases rels with
    | none => rfl
    | some rs =>
      have hdef : alignForeignKeyDataTypes ⟨some ts, some rs⟩
          = if ts.isEmpty || rs.isEmpty then (⟨some ts, some rs⟩ : Diagram)
            else ⟨some (rs.foldl processRelationship ts), some rs⟩ := rfl
      rw [hdef]
      by_cases hemp : ts.isEmpty || rs.isEmpty
      · rw [if_pos hemp]
      · rw [if_neg hemp]
        rfl

/-! ### Claim C9 -/

/-- C9: the unifier resolves endpoints against all tables, views
included — with pairwise-distinct table ids, a resolved relationship
whose source table is a view and whose source weight strictly exceeds
the target weight still has its target field overwritten, while the
emitter produces no ALTER TABLE text for that relationship because the
view is absent from the non-view table set. -/
theorem C9_views_unified_not_emitted (ts : List Table) (r : Relationship)
    (st : Table) (sty tty : String)
    (hnodup : (ts.map (fun t => t.id)).Nodup)
    (hst : tableMapGet ts r.sourceTableId = some st)
    (hview : st.isView = true)
    (hs : lookupType ts r.sourceTableId r.sourceFieldId = some sty)
    (ht : lookupType ts r.targetTableId r.targetFieldId = some tty)
    (hgt : getMySQLDataTypeSize sty > getMySQLDataTypeSize tty) :
    lookupType (processRelationship ts r) r.targetTableId r.targetFieldId
        = some sty
      ∧ relationshipSQL (ts.filter (fun t => !t.isView)) r = "" := by
  refine ⟨(processRelationship_widens ts r sty tty hs ht hgt).1, ?_⟩
  have hnone : (ts.filter (fun t => !t.isView)).find? (fun t => t.id == r.sourceTableId)
      = none := find?_filter_nonview_eq_none ts r.sourceTableId st hnodup hst hview
  unfold relationshipSQL
  simp [hnone]

def tsC9 : List Table :=
  [mkTable "V" "v" true [mkField "a" "a" "bigint"],
   mkTable "B" "b" false [mkField "b" "b" "tinyint"]]

def rC9 : Relationship := mkRel "r" "V" "a" "B" "b"

/-- C9 (witness): a concrete relationship from a view with `bigint` (8)
to a table with `tinyint` (1): the target is widened, yet the emitter
contributes nothing for the relationship. -/
theorem C9_witness :
    lookupType (processRelationship tsC9 rC9) rC9.targetTableId rC9.targetFieldId
        = some "bigint"
      ∧ relationshipSQL (tsC9.filter (fun t => !t.isView)) rC9 = "" :=
  C9_views_unified_not_emitted tsC9 rC9 (mkTable "V" "v" true [mkField "a" "a" "bigint"])
    "bigint" "tinyint" (by decide) (by decide) (by decide) (by decide) (by decide)
    (by decide)

/-! ### Claim C10 -/

/-- C10: a non-view table with no fields is not skipped: its CREATE
TABLE statement is emitted with an empty column list, exactly
`CREATE TABLE <name> (\n\n);\n\n`. -/
theorem C10_empty_table_stmt (t : Table) (h : t.fields = []) :
    createTableStmt t = "CREATE TABLE " ++ t.name ++ " (\n\n);\n\n" := by
  unfold createTableStmt
  rw [h]
  rw [show fieldsSQL ([] : List DBField) = "" from rfl, String.append_empty,
    String.append_assoc]
  rfl

/-- C10 (witness): the statement for a concrete empty table. -/
theorem C10_witness :
    createTableStmt (mkTable "E" "empty" false []) = "CREATE TABLE empty (\n\n);\n\n" :=
  C10_empty_table_stmt (mkTable "E" "empty" false []) rfl

end ChartDB
